import Mathlib

/-!
Shallow embedding of `src/app.py` (Mergington High School activities API).

The store is the single `activity` table: a list of `Activity` records.
`signup_for_activity` and `unregister_from_activity` look up the first
record whose `name` matches the path parameter (`select ... .first()`),
reject on the conditions guarded by `HTTPException`, and otherwise update
that record's JSON-encoded `participants` column and commit.
`init_db` seeds three fixed activities when the table is empty.
-/

/-- The SQLModel `Activity` row: `id` is the surrogate primary key,
`participants` the JSON-encoded ordered list of email strings. -/
structure Activity where
  id : Option Nat
  name : String
  description : Option String
  schedule : Option String
  max_participants : Option Nat
  participants : List String
deriving Repr, DecidableEq

/-- The activity table. -/
abbrev Store := List Activity

/-- An `HTTPException(status_code=..., detail=...)` raised by a handler. -/
structure HTTPError where
  status_code : Nat
  detail : String
deriving Repr, DecidableEq

/-- `session.exec(select(Activity).where(Activity.name == activity_name)).first()`:
the first stored row whose `name` equals the given name. -/
def findByName (s : Store) (n : String) : Option Activity :=
  s.find? (fun a => a.name == n)

/-- Committing an update of the row fetched by the `where(name == n)` query:
the first row whose name matches is replaced by `f` of itself, every other
row is untouched. -/
def updateFirst (n : String) (f : Activity → Activity) : Store → Store
  | [] => []
  | a :: rest => if a.name == n then f a :: rest else a :: updateFirst n f rest

/-- The body of `get_activities`: the dict comprehension keyed by `a.name`
with value `{description, schedule, max_participants, participants}`. -/
def getActivities (s : Store) : List (String × (Option String × Option String × Option Nat × List String)) :=
  s.map (fun a => (a.name, (a.description, a.schedule, a.max_participants, a.participants)))

/-- `signup_for_activity(activity_name, email)`: 404 when no row matches the
name, 400 when `email in activity.participants`, otherwise append `email`
to the participants list, commit, and return the success message. -/
def signup (s : Store) (activity_name email : String) :
    Except HTTPError (Store × String) :=
  match findByName s activity_name with
  | none => .error ⟨404, "Activity not found"⟩
  | some activity =>
    if email ∈ activity.participants then
      .error ⟨400, "Student is already signed up"⟩
    else
      .ok (updateFirst activity_name
             (fun a => { a with participants := a.participants ++ [email] }) s,
           "Signed up " ++ email ++ " for " ++ activity_name)

/-- `unregister_from_activity(activity_name, email)`: 404 when no row matches
the name, 400 when `email not in participants`, otherwise remove the first
matching entry (`list.remove`), commit, and return the success message. -/
def unregister (s : Store) (activity_name email : String) :
    Except HTTPError (Store × String) :=
  match findByName s activity_name with
  | none => .error ⟨404, "Activity not found"⟩
  | some activity =>
    if email ∈ activity.participants then
      .ok (updateFirst activity_name
             (fun a => { a with participants := a.participants.erase email }) s,
           "Unregistered " ++ email ++ " from " ++ activity_name)
    else
      .error ⟨400, "Student is not signed up for this activity"⟩

/-- The fixed seed records built inside `init_db`. -/
def seedActivities : Store :=
  [ ⟨none, "Chess Club",
      some "Learn strategies and compete in chess tournaments",
      some "Fridays, 3:30 PM - 5:00 PM", some 12,
      ["michael@mergington.edu", "daniel@mergington.edu"]⟩,
    ⟨none, "Programming Class",
      some "Learn programming fundamentals and build software projects",
      some "Tuesdays and Thursdays, 3:30 PM - 4:30 PM", some 20,
      ["emma@mergington.edu", "sophia@mergington.edu"]⟩,
    ⟨none, "Gym Class",
      some "Physical education and sports activities",
      some "Mondays, Wednesdays, Fridays, 2:00 PM - 3:00 PM", some 30,
      ["john@mergington.edu", "olivia@mergington.edu"]⟩ ]

/-- `init_db`: when `select(Activity)...first()` finds no row the three seed
activities are added and committed; otherwise nothing is inserted. -/
def initDb (s : Store) : Store :=
  match s.head? with
  | none => s ++ seedActivities
  | some _ => s

/-- The store left behind by a handler call: an `HTTPException` raised before
`session.commit()` leaves the table as it was; a success carries the
committed table. -/
def stateAfter (s : Store) (r : Except HTTPError (Store × String)) : Store :=
  match r with
  | .ok (s1, _) => s1
  | .error _ => s

example : signup seedActivities "Nope" "x" = .error ⟨404, "Activity not found"⟩ := rfl

/-! ### Helper lemmas about `find?` and `updateFirst` -/

theorem find?_append_cons_of_forall_false {p : Activity → Bool} {l1 l2 : Store}
    {x : Activity} (h1 : ∀ b ∈ l1, p b = false) (hx : p x = true) :
    List.find? p (l1 ++ x :: l2) = some x := by
  induction l1 with
  | nil => simp [List.find?_cons_of_pos _ hx]
  | cons b t ih =>
    have hb : ¬ p b = true := by simp [h1 b (by simp)]
    have ht : ∀ c ∈ t, p c = false := fun c hc => h1 c (by simp [hc])
    rw [List.cons_append, List.find?_cons_of_neg _ hb]
    exact ih ht

theorem findByName_decomp {s : Store} {n : String} {a : Activity}
    (h : findByName s n = some a) :
    ∃ l1 l2, s = l1 ++ a :: l2 ∧ (∀ b ∈ l1, (b.name == n) = false) ∧ a.name = n ∧
      ∀ f, updateFirst n f s = l1 ++ f a :: l2 := by
  induction s with
  | nil => simp [findByName] at h
  | cons b rest ih =>
    by_cases hb : (b.name == n) = true
    · have hba : b = a := by
        have hpos : List.find? (fun a => a.name == n) (b :: rest) = some b :=
          List.find?_cons_of_pos _ hb
        rw [findByName, hpos] at h
        exact Option.some.injEq b a ▸ h
      subst hba
      exact ⟨[], rest, by simp, by simp, eq_of_beq hb,
        fun f => by simp [updateFirst, hb]⟩
    · have h1 : findByName rest n = some a := by
        have hneg : List.find? (fun a => a.name == n) (b :: rest) =
            List.find? (fun a => a.name == n) rest :=
          List.find?_cons_of_neg _ hb
        rw [findByName, hneg] at h
        exact h
      obtain ⟨l1, l2, hs, hl1, hname, hupd⟩ := ih h1
      refine ⟨b :: l1, l2, by simp [hs], ?_, hname, ?_⟩
      · intro c hc
        rcases List.mem_cons.mp hc with hc | hc
        · subst hc; simpa using hb
        · exact hl1 c hc
      · intro f
        simp only [updateFirst, if_neg hb, hupd f, List.cons_append]

theorem findByName_updateFirst {s : Store} {n : String} {a : Activity}
    (f : Activity → Activity) (h : findByName s n = some a) (hf : (f a).name = a.name) :
    findByName (updateFirst n f s) n = some (f a) := by
  obtain ⟨l1, l2, _, hl1, hname, hupd⟩ := findByName_decomp h
  rw [hupd f]
  exact find?_append_cons_of_forall_false hl1 (by rw [hf, hname]; simp)

/-! ### Inversion and success lemmas for the two mutating handlers -/

theorem signup_ok_spec {s : Store} {n e : String} {a : Activity}
    (hfind : findByName s n = some a) (he : e ∉ a.participants) :
    signup s n e =
      .ok (updateFirst n (fun b => { b with participants := b.participants ++ [e] }) s,
           "Signed up " ++ e ++ " for " ++ n) := by
  simp [signup, hfind, he]

theorem unregister_ok_spec {s : Store} {n e : String} {a : Activity}
    (hfind : findByName s n = some a) (he : e ∈ a.participants) :
    unregister s n e =
      .ok (updateFirst n (fun b => { b with participants := b.participants.erase e }) s,
           "Unregistered " ++ e ++ " from " ++ n) := by
  simp [unregister, hfind, he]

theorem signup_ok_inv {s : Store} {n e : String} {s1 : Store} {m : String}
    (h : signup s n e = .ok (s1, m)) :
    ∃ a, findByName s n = some a ∧ e ∉ a.participants ∧
      s1 = updateFirst n (fun b => { b with participants := b.participants ++ [e] }) s := by
  unfold signup at h
  cases hf : findByName s n with
  | none => rw [hf] at h; cases h
  | some a =>
    rw [hf] at h
    by_cases he : e ∈ a.participants
    · simp [he] at h
    · simp only [if_neg he, Except.ok.injEq, Prod.mk.injEq] at h
      exact ⟨a, rfl, he, h.1.symm⟩

theorem unregister_ok_inv {s : Store} {n e : String} {s1 : Store} {m : String}
    (h : unregister s n e = .ok (s1, m)) :
    ∃ a, findByName s n = some a ∧ e ∈ a.participants ∧
      s1 = updateFirst n (fun b => { b with participants := b.participants.erase e }) s := by
  unfold unregister at h
  cases hf : findByName s n with
  | none => rw [hf] at h; cases h
  | some a =>
    rw [hf] at h
    by_cases he : e ∈ a.participants
    · simp only [if_pos he, Except.ok.injEq, Prod.mk.injEq] at h
      exact ⟨a, rfl, he, h.1.symm⟩
    · simp [he] at h

/-! ### Claims -/

/-- Claim C1: for every stored activity and every email not already among its
participants, `signup` succeeds; afterwards that activity's participants equal
the old sequence with the email appended at the end (existing order preserved),
the email appears exactly once, and the returned success message is
`Signed up {email} for {activity_name}`. -/
theorem C1_signup_appends_once {s : Store} {n e : String} {a : Activity}
    (hfind : findByName s n = some a) (he : e ∉ a.participants) :
    ∃ s1, signup s n e = .ok (s1, "Signed up " ++ e ++ " for " ++ n) ∧
      findByName s1 n = some { a with participants := a.participants ++ [e] } ∧
      (a.participants ++ [e]).count e = 1 := by
  refine ⟨_, signup_ok_spec hfind he, findByName_updateFirst _ hfind rfl, ?_⟩
  have h0 : a.participants.count e = 0 := List.count_eq_zero.mpr he
  simp [List.count_append, h0]

theorem C1_witness :
    ∃ s1, signup seedActivities "Chess Club" "new@mergington.edu" =
        .ok (s1, "Signed up " ++ "new@mergington.edu" ++ " for " ++ "Chess Club") ∧
      findByName s1 "Chess Club" =
        some ⟨none, "Chess Club",
          some "Learn strategies and compete in chess tournaments",
          some "Fridays, 3:30 PM - 5:00 PM", some 12,
          ["michael@mergington.edu", "daniel@mergington.edu", "new@mergington.edu"]⟩ ∧
      ((["michael@mergington.edu", "daniel@mergington.edu"] : List String) ++
        ["new@mergington.edu"]).count "new@mergington.edu" = 1 :=
  C1_signup_appends_once
    (a := ⟨none, "Chess Club",
      some "Learn strategies and compete in chess tournaments",
      some "Fridays, 3:30 PM - 5:00 PM", some 12,
      ["michael@mergington.edu", "daniel@mergington.edu"]⟩)
    rfl (by decide)

/-- Claim C2: on a stored activity, `signup` with an email already present
fails with HTTP 400 and `unregister` with an email not present fails with
HTTP 400; in both failure cases the store (hence the activity's participant
list and count) is unchanged. -/
theorem C2_conflicts {s : Store} {n e1 e2 : String} {a : Activity}
    (hfind : findByName s n = some a)
    (h1 : e1 ∈ a.participants) (h2 : e2 ∉ a.participants) :
    signup s n e1 = .error ⟨400, "Student is already signed up"⟩ ∧
    unregister s n e2 = .error ⟨400, "Student is not signed up for this activity"⟩ ∧
    stateAfter s (signup s n e1) = s ∧
    stateAfter s (unregister s n e2) = s := by
  have hs : signup s n e1 = .error ⟨400, "Student is already signed up"⟩ := by
    simp [signup, hfind, h1]
  have hu : unregister s n e2 =
      .error ⟨400, "Student is not signed up for this activity"⟩ := by
    simp [unregister, hfind, h2]
  exact ⟨hs, hu, by rw [hs]; rfl, by rw [hu]; rfl⟩

theorem C2_witness :
    signup seedActivities "Chess Club" "michael@mergington.edu" =
      .error ⟨400, "Student is already signed up"⟩ ∧
    unregister seedActivities "Chess Club" "stranger@mergington.edu" =
      .error ⟨400, "Student is not signed up for this activity"⟩ ∧
    stateAfter seedActivities
      (signup seedActivities "Chess Club" "michael@mergington.edu") = seedActivities ∧
    stateAfter seedActivities
      (unregister seedActivities "Chess Club" "stranger@mergington.edu") = seedActivities :=
  C2_conflicts
    (a := ⟨none, "Chess Club",
      some "Learn strategies and compete in chess tournaments",
      some "Fridays, 3:30 PM - 5:00 PM", some 12,
      ["michael@mergington.edu", "daniel@mergington.edu"]⟩)
    rfl (by decide) (by decide)

/-- Claim C3: for every stored activity and every email present in its
participants, `unregister` succeeds, removes exactly the one matching entry
(the count of that email drops by one), the remaining participants keep their
relative order (the new list is a sublist of the old), and the change is
persisted (a subsequent lookup sees the erased list). -/
theorem C3_unregister_removes {s : Store} {n e : String} {a : Activity}
    (hfind : findByName s n = some a) (he : e ∈ a.participants) :
    ∃ s1, unregister s n e = .ok (s1, "Unregistered " ++ e ++ " from " ++ n) ∧
      findByName s1 n = some { a with participants := a.participants.erase e } ∧
      (a.participants.erase e).count e + 1 = a.participants.count e ∧
      (a.participants.erase e).Sublist a.participants := by
  refine ⟨_, unregister_ok_spec hfind he, findByName_updateFirst _ hfind rfl, ?_, ?_⟩
  · have hpos : 0 < a.participants.count e := List.count_pos_iff.mpr he
    rw [List.count_erase_self]
    omega
  · exact List.erase_sublist _ _

theorem C3_witness :
    ∃ s1, unregister seedActivities "Chess Club" "michael@mergington.edu" =
        .ok (s1, "Unregistered " ++ "michael@mergington.edu" ++ " from " ++ "Chess Club") ∧
      findByName s1 "Chess Club" =
        some ⟨none, "Chess Club",
          some "Learn strategies and compete in chess tournaments",
          some "Fridays, 3:30 PM - 5:00 PM", some 12,
          ((["michael@mergington.edu", "daniel@mergington.edu"] : List String).erase
            "michael@mergington.edu")⟩ ∧
      ((["michael@mergington.edu", "daniel@mergington.edu"] : List String).erase
          "michael@mergington.edu").count "michael@mergington.edu" + 1 =
        (["michael@mergington.edu", "daniel@mergington.edu"] :
          List String).count "michael@mergington.edu" ∧
      ((["michael@mergington.edu", "daniel@mergington.edu"] : List String).erase
          "michael@mergington.edu").Sublist
        ["michael@mergington.edu", "daniel@mergington.edu"] :=
  C3_unregister_removes
    (a := ⟨none, "Chess Club",
      some "Learn strategies and compete in chess tournaments",
      some "Fridays, 3:30 PM - 5:00 PM", some 12,
      ["michael@mergington.edu", "daniel@mergington.edu"]⟩)
    rfl (by decide)

/-- Claim C4: for every name matching no stored activity and every email,
both `signup` and `unregister` fail with HTTP 404 and leave the store
unchanged. -/
theorem C4_not_found {s : Store} {n e : String} (hfind : findByName s n = none) :
    signup s n e = .error ⟨404, "Activity not found"⟩ ∧
    unregister s n e = .error ⟨404, "Activity not found"⟩ ∧
    stateAfter s (signup s n e) = s ∧
    stateAfter s (unregister s n e) = s := by
  have hs : signup s n e = .error ⟨404, "Activity not found"⟩ := by
    simp [signup, hfind]
  have hu : unregister s n e = .error ⟨404, "Activity not found"⟩ := by
    simp [unregister, hfind]
  exact ⟨hs, hu, by rw [hs]; rfl, by rw [hu]; rfl⟩

theorem C4_witness :
    signup seedActivities "Knitting Club" "a@mergington.edu" =
      .error ⟨404, "Activity not found"⟩ ∧
    unregister seedActivities "Knitting Club" "a@mergington.edu" =
      .error ⟨404, "Activity not found"⟩ ∧
    stateAfter seedActivities
      (signup seedActivities "Knitting Club" "a@mergington.edu") = seedActivities ∧
    stateAfter seedActivities
      (unregister seedActivities "Knitting Club" "a@mergington.edu") = seedActivities :=
  C4_not_found rfl

/-- Store states reachable from the empty table through startup seeding
(`init_db`) and successful signup / unregister handler calls. -/
inductive Reachable : Store → Prop
  | empty : Reachable []
  | seed {s : Store} : Reachable s → Reachable (initDb s)
  | signup_step {s : Store} {n e : String} {s1 : Store} {m : String} :
      Reachable s → signup s n e = .ok (s1, m) → Reachable s1
  | unregister_step {s : Store} {n e : String} {s1 : Store} {m : String} :
      Reachable s → unregister s n e = .ok (s1, m) → Reachable s1

/-- Claim C5: in every store state reachable from the empty store via seeding,
signup and unregister operations, no email appears twice in any single
activity's participants list. -/
theorem C5_no_duplicate_emails {s : Store} (h : Reachable s) :
    ∀ a ∈ s, a.participants.Nodup := by
  induction h with
  | empty => intro a ha; cases ha
  | seed h ih =>
    intro a ha
    rename_i t
    cases t with
    | nil =>
      have hseed : ∀ b ∈ seedActivities, b.participants.Nodup := by decide
      exact hseed a ha
    | cons b u => exact ih a ha
  | signup_step h heq ih =>
    intro a ha
    obtain ⟨act, hfind, he, hs1⟩ := signup_ok_inv heq
    obtain ⟨l1, l2, hs, hl1, hname, hupd⟩ := findByName_decomp hfind
    rw [hs1, hupd] at ha
    have hact : act.participants.Nodup :=
      ih act (hs ▸ List.mem_append_right l1 (List.mem_cons_self act l2))
    rcases List.mem_append.mp ha with hmem | hmem
    · exact ih a (hs ▸ List.mem_append_left _ hmem)
    · rcases List.mem_cons.mp hmem with hmem | hmem
      · subst hmem
        rw [List.nodup_append]
        exact ⟨hact, List.nodup_singleton _,
          fun x hx hx2 => he ((List.mem_singleton.mp hx2) ▸ hx)⟩
      · exact ih a (hs ▸ List.mem_append_right l1 (List.mem_cons_of_mem act hmem))
  | unregister_step h heq ih =>
    intro a ha
    obtain ⟨act, hfind, he, hs1⟩ := unregister_ok_inv heq
    obtain ⟨l1, l2, hs, hl1, hname, hupd⟩ := findByName_decomp hfind
    rw [hs1, hupd] at ha
    have hact : act.participants.Nodup :=
      ih act (hs ▸ List.mem_append_right l1 (List.mem_cons_self act l2))
    rcases List.mem_append.mp ha with hmem | hmem
    · exact ih a (hs ▸ List.mem_append_left _ hmem)
    · rcases List.mem_cons.mp hmem with hmem | hmem
      · subst hmem
        exact hact.erase _
      · exact ih a (hs ▸ List.mem_append_right l1 (List.mem_cons_of_mem act hmem))

theorem C5_witness :
    (⟨none, "Chess Club",
      some "Learn strategies and compete in chess tournaments",
      some "Fridays, 3:30 PM - 5:00 PM", some 12,
      ["michael@mergington.edu", "daniel@mergington.edu"]⟩ : Activity).participants.Nodup :=
  C5_no_duplicate_emails (Reachable.seed Reachable.empty) _ (by decide)

/-- Claim C6: seeding an empty store inserts exactly 3 activities named
Chess Club, Programming Class and Gym Class with the specified descriptions,
schedules, capacities and initial participant lists; seeding a store that
already holds any activity inserts zero records. -/
theorem C6_seeding :
    (initDb []).length = 3 ∧
    (initDb []).map Activity.name =
      ["Chess Club", "Programming Class", "Gym Class"] ∧
    (initDb []).map Activity.description =
      [some "Learn strategies and compete in chess tournaments",
       some "Learn programming fundamentals and build software projects",
       some "Physical education and sports activities"] ∧
    (initDb []).map Activity.schedule =
      [some "Fridays, 3:30 PM - 5:00 PM",
       some "Tuesdays and Thursdays, 3:30 PM - 4:30 PM",
       some "Mondays, Wednesdays, Fridays, 2:00 PM - 3:00 PM"] ∧
    (initDb []).map Activity.max_participants = [some 12, some 20, some 30] ∧
    (initDb []).map Activity.participants =
      [["michael@mergington.edu", "daniel@mergington.edu"],
       ["emma@mergington.edu", "sophia@mergington.edu"],
       ["john@mergington.edu", "olivia@mergington.edu"]] ∧
    ∀ s : Store, s ≠ [] → initDb s = s := by
  refine ⟨rfl, rfl, rfl, rfl, rfl, rfl, ?_⟩
  intro s hs
  cases s with
  | nil => exact absurd rfl hs
  | cons a t => rfl

theorem C6_witness :
    seedActivities ≠ [] ∧ initDb seedActivities = seedActivities :=
  ⟨by decide, C6_seeding.2.2.2.2.2.2 seedActivities (by decide)⟩

/-- Claim C7: the signup path does not enforce `max_participants`: for a
stored activity whose participant count has reached (or passed) its capacity,
signing up a not-yet-present email still succeeds and appends it. -/
theorem C7_capacity_not_enforced {s : Store} {n e : String} {a : Activity}
    {c : Nat} (hfind : findByName s n = some a)
    (hcap : a.max_participants = some c) (hfull : c ≤ a.participants.length)
    (he : e ∉ a.participants) :
    ∃ s1, signup s n e = .ok (s1, "Signed up " ++ e ++ " for " ++ n) ∧
      findByName s1 n = some { a with participants := a.participants ++ [e] } :=
  ⟨_, signup_ok_spec hfind he, findByName_updateFirst _ hfind rfl⟩

theorem C7_witness :
    ∃ s1, signup [⟨some 1, "Tiny Club", none, none, some 1, ["a@mergington.edu"]⟩]
        "Tiny Club" "b@mergington.edu" =
        .ok (s1, "Signed up " ++ "b@mergington.edu" ++ " for " ++ "Tiny Club") ∧
      findByName s1 "Tiny Club" =
        some ⟨some 1, "Tiny Club", none, none, some 1,
          ["a@mergington.edu", "b@mergington.edu"]⟩ :=
  C7_capacity_not_enforced
    (a := ⟨some 1, "Tiny Club", none, none, some 1, ["a@mergington.edu"]⟩)
    (c := 1) rfl rfl (by decide) (by decide)

/-- Claim C8: `GET /activities` returns a mapping keyed by activity name whose
value for each stored activity is exactly its description, schedule,
max_participants and participants; the participant list is returned verbatim,
hence in its stored insertion order. (The hypothesis that stored names are
pairwise distinct is the uniqueness invariant of the data model; with a
duplicate name the Python dict comprehension would keep only the last row.) -/
theorem C8_get_activities {s : Store} {a : Activity}
    (hnodup : (s.map Activity.name).Nodup) (ha : a ∈ s) :
    (getActivities s).lookup a.name =
      some (a.description, a.schedule, a.max_participants, a.participants) := by
  induction s with
  | nil => cases ha
  | cons b t ih =>
    simp only [List.map_cons, List.nodup_cons] at hnodup
    rcases List.mem_cons.mp ha with h | h
    · subst h
      simp [getActivities, List.lookup]
    · have hne : (a.name == b.name) = false := by
        apply beq_eq_false_iff_ne.mpr
        intro hEq
        exact hnodup.1 (hEq ▸ List.mem_map_of_mem Activity.name h)
      have hrec := ih hnodup.2 h
      simpa [getActivities, List.lookup, hne] using hrec

theorem C8_witness :
    (getActivities seedActivities).lookup "Programming Class" =
      some (some "Learn programming fundamentals and build software projects",
            some "Tuesdays and Thursdays, 3:30 PM - 4:30 PM", some 20,
            ["emma@mergington.edu", "sophia@mergington.edu"]) :=
  C8_get_activities
    (a := ⟨none, "Programming Class",
      some "Learn programming fundamentals and build software projects",
      some "Tuesdays and Thursdays, 3:30 PM - 4:30 PM", some 20,
      ["emma@mergington.edu", "sophia@mergington.edu"]⟩)
    (by decide) (by decide)

/-- Claim C9: a successful signup or unregister on activity name `n` replaces
only the first stored record named `n` and changes only its `participants`
field: that record's id, name, description, schedule and max_participants are
unchanged, and every record before and after it is untouched. -/
theorem C9_frame {s : Store} {n e : String} {s1 : Store} {m : String}
    (h : signup s n e = .ok (s1, m) ∨ unregister s n e = .ok (s1, m)) :
    ∃ l1 a b l2, s = l1 ++ a :: l2 ∧ s1 = l1 ++ b :: l2 ∧
      b.id = a.id ∧ b.name = a.name ∧ b.description = a.description ∧
      b.schedule = a.schedule ∧ b.max_participants = a.max_participants ∧
      a.name = n := by
  rcases h with h | h
  · obtain ⟨a, hfind, he, hs1⟩ := signup_ok_inv h
    obtain ⟨l1, l2, hs, hl1, hname, hupd⟩ := findByName_decomp hfind
    exact ⟨l1, a, { a with participants := a.participants ++ [e] }, l2, hs,
      by rw [hs1, hupd], rfl, rfl, rfl, rfl, rfl, hname⟩
  · obtain ⟨a, hfind, he, hs1⟩ := unregister_ok_inv h
    obtain ⟨l1, l2, hs, hl1, hname, hupd⟩ := findByName_decomp hfind
    exact ⟨l1, a, { a with participants := a.participants.erase e }, l2, hs,
      by rw [hs1, hupd], rfl, rfl, rfl, rfl, rfl, hname⟩

theorem C9_witness :
    ∃ l1 a b l2, seedActivities = l1 ++ a :: l2 ∧
      ([ ⟨none, "Chess Club",
          some "Learn strategies and compete in chess tournaments",
          some "Fridays, 3:30 PM - 5:00 PM", some 12,
          ["michael@mergington.edu", "daniel@mergington.edu",
           "new@mergington.edu"]⟩,
        ⟨none, "Programming Class",
          some "Learn programming fundamentals and build software projects",
          some "Tuesdays and Thursdays, 3:30 PM - 4:30 PM", some 20,
          ["emma@mergington.edu", "sophia@mergington.edu"]⟩,
        ⟨none, "Gym Class",
          some "Physical education and sports activities",
          some "Mondays, Wednesdays, Fridays, 2:00 PM - 3:00 PM", some 30,
          ["john@mergington.edu", "olivia@mergington.edu"]⟩ ] : Store) =
        l1 ++ b :: l2 ∧
      b.id = a.id ∧ b.name = a.name ∧ b.description = a.description ∧
      b.schedule = a.schedule ∧ b.max_participants = a.max_participants ∧
      a.name = "Chess Club" :=
  C9_frame (s := seedActivities) (n := "Chess Club") (e := "new@mergington.edu")
    (m := "Signed up new@mergington.edu for Chess Club") (Or.inl rfl)

/-- Claim C10: the handlers perform no validation of the email parameter: any
string whatsoever, the empty string included, is accepted by signup on an
existing activity whose participants do not contain it and is stored verbatim
(appended as-is), and unregister symmetrically accepts any such string that is
present. -/
theorem C10_no_email_validation {s : Store} {n : String} (e : String)
    {a : Activity} (hfind : findByName s n = some a) :
    (e ∉ a.participants →
      signup s n e =
        .ok (updateFirst n
               (fun b => { b with participants := b.participants ++ [e] }) s,
             "Signed up " ++ e ++ " for " ++ n)) ∧
    (e ∈ a.participants →
      unregister s n e =
        .ok (updateFirst n
               (fun b => { b with participants := b.participants.erase e }) s,
             "Unregistered " ++ e ++ " from " ++ n)) :=
  ⟨fun he => signup_ok_spec hfind he, fun he => unregister_ok_spec hfind he⟩

theorem C10_witness :
    signup seedActivities "Chess Club" "" =
      .ok (updateFirst "Chess Club"
             (fun b => { b with participants := b.participants ++ [""] })
             seedActivities,
           "Signed up " ++ "" ++ " for " ++ "Chess Club") :=
  (C10_no_email_validation (s := seedActivities) (n := "Chess Club")
    (a := ⟨none, "Chess Club",
      some "Learn strategies and compete in chess tournaments",
      some "Fridays, 3:30 PM - 5:00 PM", some 12,
      ["michael@mergington.edu", "daniel@mergington.edu"]⟩)
    "" rfl).1 (by decide)
